import Mathlib

/-!
# Verification of the CaptionTeam image-captioning core

Shallow embedding of the repository's two source files and proofs about them:

* `src/models/Attention.py` — `BahdanauAttention` (learned attention scorer)
  and `DecoderLSTM` (recurrent caption decoder with scheduled sampling and a
  greedy decoding loop);
* `src/datasets/embedding.py` — `CaptionEmbedder` (vocabulary construction
  with a minimum-frequency cutoff, pickle-based persistence).

Floating-point tensors are idealised as functions into `ℝ`.  The purely
numeric kernels of the decoder loops (embedding lookup, LSTM cell, dropout,
output projection, arg-max sampling) are abstracted as parameters of the loop
embeddings: the control-flow properties proved below hold for *every*
instantiation of those kernels, which subsumes the concrete network.
-/

open Finset

/-- An `nn.Linear` layer: weight matrix and bias vector. -/
structure Linear (inDim outDim : Nat) where
  weight : Fin outDim → Fin inDim → ℝ
  bias : Fin outDim → ℝ

/-- Application of an `nn.Linear` layer: `y j = (W x) j + b j`. -/
noncomputable def Linear.apply {inDim outDim : Nat} (L : Linear inDim outDim)
    (x : Fin inDim → ℝ) (j : Fin outDim) : ℝ :=
  (∑ k, L.weight j k * x k) + L.bias j

/-- `BahdanauAttention.__init__` (src/models/Attention.py lines 8-18): three
learned layers `W_a : num_features → hidden_dim`, `U_a : hidden_dim →
hidden_dim` and `v_a : hidden_dim → output_dim` with `output_dim = 1` (the
default, used by `DecoderLSTM`). -/
structure BahdanauAttention (num_features hidden_dim : Nat) where
  W_a : Linear num_features hidden_dim
  U_a : Linear hidden_dim hidden_dim
  v_a : Linear hidden_dim 1

/-- Lines 29-33 of `BahdanauAttention.forward`: the pre-softmax score of slot
`s` for batch example `i`, namely `v_a(tanh(W_a(features) + U_a(hidden)))`
(the unsqueeze of `hidden` broadcasts the same `U_a hidden i` to every slot). -/
noncomputable def attention_score {b n nf hd : Nat} (A : BahdanauAttention nf hd)
    (features : Fin b → Fin n → Fin nf → ℝ) (hidden : Fin b → Fin hd → ℝ)
    (i : Fin b) (s : Fin n) : ℝ :=
  A.v_a.apply (fun j => Real.tanh (A.W_a.apply (features i s) j + A.U_a.apply (hidden i) j)) 0

/-- Line 34: `attention_weight = F.softmax(attention_score, dim=1)`, the
softmax across the slot axis. -/
noncomputable def attention_weight {b n nf hd : Nat} (A : BahdanauAttention nf hd)
    (features : Fin b → Fin n → Fin nf → ℝ) (hidden : Fin b → Fin hd → ℝ)
    (i : Fin b) (s : Fin n) : ℝ :=
  Real.exp (attention_score A features hidden i s) /
    ∑ u, Real.exp (attention_score A features hidden i u)

/-- Line 35: `context = torch.sum(attention_weight * features, dim=1)`, the
attention-weighted sum of the feature slots. -/
noncomputable def attention_context {b n nf hd : Nat} (A : BahdanauAttention nf hd)
    (features : Fin b → Fin n → Fin nf → ℝ) (hidden : Fin b → Fin hd → ℝ)
    (i : Fin b) (d : Fin nf) : ℝ :=
  ∑ s, attention_weight A features hidden i s * features i s d

/-! ## Shape-level semantics of `BahdanauAttention`

For the construction-time/call-time error claim we track tensor shapes.  An
`nn.Linear(inF, outF)` applied to a tensor raises a `RuntimeError` exactly
when the tensor's last dimension differs from `inF`; otherwise the last
dimension becomes `outF`. -/

/-- Shape behaviour of applying `nn.Linear inF outF` to a tensor whose last
dimension is `last`: `none` models the runtime shape error. -/
def linear_apply_shape (inF outF last : Nat) : Option Nat :=
  if last = inF then some outF else none

/-- PyTorch broadcasting of two sizes along one axis. -/
def broadcast_dim (a b : Nat) : Option Nat :=
  if a = b then some a else if a = 1 then some b else if b = 1 then some a else none

/-- Shape behaviour of `BahdanauAttention.__init__` (lines 8-18): it only
stores the three weight-matrix shapes, performing no validation, so
construction succeeds for every dimension configuration. -/
def bahdanau_init (num_features hidden_dim output_dim : Nat) :
    (Nat × Nat) × (Nat × Nat) × (Nat × Nat) :=
  ((num_features, hidden_dim), (hidden_dim, hidden_dim), (hidden_dim, output_dim))

/-- Shape behaviour of `BahdanauAttention.forward` (lines 29-36) for
`features : (b, n, fdim)` and `hidden : (b2, hdim)` against configuration
`(nf, hd)`: returns the shapes of `(context, attention_weight)` or `none`
when some tensor operation raises a shape error. -/
def bahdanau_forward_shape (nf hd b n fdim b2 hdim : Nat) :
    Option ((Nat × Nat) × (Nat × Nat)) :=
  match linear_apply_shape nf hd fdim with
  | none => none
  | some d1 =>
    match linear_apply_shape hd hd hdim with
    | none => none
    | some d2 =>
      match broadcast_dim b b2 with
      | none => none
      | some bb =>
        match broadcast_dim d1 d2 with
        | none => none
        | some d3 =>
          match linear_apply_shape hd 1 d3 with
          | none => none
          | some _ =>
            match broadcast_dim bb b with
            | none => none
            | some bc => some ((bc, fdim), (bb, n))

/-! ## `DecoderLSTM.init_hidden` (lines 112-121)

The docstring promises outputs `h0` (initial hidden state) and `c0` (initial
cell state), but the body only computes the per-slot mean and `h0` and then
ends **without a `return` statement**, so as a Python function it returns
`None`; the `init_c` layer is never applied.  The embedding records the
computed locals and the `None` result. -/

/-- `DecoderLSTM.init_hidden`: computes `mean_annotations = torch.mean(features,
dim=1)` and `h0 = init_h(mean_annotations)` (lines 120-121) but returns `None`
(no `return` statement; `init_c` unused). -/
noncomputable def init_hidden {b n nf hd : Nat} (init_h init_c : Linear nf hd)
    (features : Fin b → Fin n → Fin nf → ℝ) :
    Option ((Fin b → Fin hd → ℝ) × (Fin b → Fin hd → ℝ)) :=
  let mean_annotations : Fin b → Fin nf → ℝ := fun i d => (∑ s, features i s d) / (n : ℝ)
  let h0 : Fin b → Fin hd → ℝ := fun i => init_h.apply (mean_annotations i)
  none

/-! ## Greedy decoding loop (`DecoderLSTM.greedy_search`, lines 123-152)

The loop body (lines 138-146) runs the embedding lookup, attention, LSTM
cell, dropout, output projection, `log_softmax` and `topk(1)`; all of this is
one deterministic function from the recurrent state and the current input
token to a new state, an emitted token index and an attention weight.  The
claims about the loop are control-flow properties, so the body is abstracted
as such a step function and the theorems quantify over every step function
(hence over the concrete network in particular).  The initial recurrent state
is a parameter because `init_hidden` fails to return one (see `init_hidden`
above). -/

/-- One iteration of the `greedy_search` loop body: from the recurrent state
and the current input token, produce the next state, the emitted `top_idx`
token, and the recorded attention weight. -/
structure GreedyStep (σ ω : Type) where
  step : σ → Nat → σ × Nat × ω

/-- The `while True` loop of `greedy_search` (lines 137-151): append the
emitted token and attention weight, then break when the sentence has reached
`max_sentence` tokens or the emitted token is the end token `1`.  The loop
extends the sentence by one token per iteration and breaks as soon as its
length reaches `max_sentence`, so `fuel = max_sentence` iterations always
suffice; the `fuel = 0` fallthrough is unreachable from `greedy_search` and
only makes the recursion structural. -/
def greedy_loop {σ ω : Type} (M : GreedyStep σ ω) (max_sentence : Nat) :
    Nat → σ → Nat → List Nat → List ω → List Nat × List ω
  | fuel, s, input_word, sentence, weights =>
    let r := M.step s input_word
    let sentence' := sentence ++ [r.2.1]
    let weights' := weights ++ [r.2.2]
    if max_sentence ≤ sentence'.length ∨ r.2.1 = 1 then
      (sentence', weights')
    else
      match fuel with
      | 0 => (sentence', weights')
      | fuel' + 1 => greedy_loop M max_sentence fuel' r.1 r.2.1 sentence' weights'

/-- `DecoderLSTM.greedy_search` (default `max_sentence = 20`): start from the
start token `0` (line 135) with empty `sentence` and `weights` accumulators
and run the loop. -/
def greedy_search {σ ω : Type} (M : GreedyStep σ ω) (hc : σ) (max_sentence : Nat) :
    List Nat × List ω :=
  greedy_loop M max_sentence max_sentence hc 0 [] []

/-- Concrete step model that always emits the end token `1`. -/
def stepOne : GreedyStep Unit Unit :=
  ⟨fun _ _ => ((), 1, ())⟩

/-- Concrete step model that always emits token `0` (never the end token). -/
def stepZero : GreedyStep Unit Unit :=
  ⟨fun _ _ => ((), 0, ())⟩

/-! ## Training-mode loop (`DecoderLSTM.forward`, lines 67-110)

Again the numeric kernels are abstracted: `embed` is the embedding table
(line 59; `embed[:, t, :]` is `embed (captions t)`), `attention` maps the
current recurrent state to the context and attention weight (line 96),
`lstm_drop` is lines 98-100 (concatenate, LSTM cell, dropout), `fc` is
line 101, and `sample` is lines 104-106 (arg-max of the temperature-scaled
`log_softmax`).  Randomness is the sequence of `np.random.random()` draws,
one per step.  Line 92 rebinds `sample_prob` to `0.0` at `t = 0` and `0.5`
otherwise before it is ever read, so the caller-supplied argument is dead.

If `use_sampling` were true at `t = 0`, line 98 would read `word_embed`
before any assignment (a Python `NameError`); the embedding models that crash
as `none` (it cannot occur for draws in `[0,1)`, since the `t = 0` threshold
is `0.0`). -/

/-- Abstract numeric kernels of `DecoderLSTM.forward`. -/
structure ForwardModel (σ γ ω E O : Type) where
  embed : Nat → E
  attention : σ → γ × ω
  lstm_drop : E → γ → σ → σ
  fc : σ → O
  sample : O → Nat

/-- Lines 92-93 of `DecoderLSTM.forward`: `sample_prob = 0.0 if t == 0 else
0.5; use_sampling = np.random.random() < sample_prob`, with `draws t` the
random draw of step `t`. -/
def use_sampling_at (draws : Nat → ℚ) (t : Nat) : Bool :=
  decide (draws t < if t = 0 then 0 else 1/2)

/-- State of the `forward` loop after the first `t` steps: the recurrent
state, the `word_embed` binding left by the previous iteration (`none`
before step 0), and the accumulated `outputs` and `attention_weights`.
Each successor case is one iteration of lines 91-109. -/
def forward_iter {σ γ ω E O : Type} (M : ForwardModel σ γ ω E O) (hc0 : σ)
    (captions : Nat → Nat) (draws : Nat → ℚ) :
    Nat → Option (σ × Option E × List O × List ω)
  | 0 => some (hc0, none, [], [])
  | t + 1 =>
    match forward_iter M hc0 captions draws t with
    | none => none
    | some (h, we, outs, wts) =>
      let we1 : Option E :=
        if use_sampling_at draws t then we else some (M.embed (captions t))
      match we1 with
      | none => none
      | some word_embed =>
        let ca := M.attention h
        let h' := M.lstm_drop word_embed ca.1 h
        let output := M.fc h'
        let we2 : Option E :=
          if use_sampling_at draws t then some (M.embed (M.sample output))
          else some word_embed
        some (h', we2, outs ++ [output], wts ++ [ca.2])

/-- Observer: the word embedding consumed by the LSTM cell at step `t`
(the `word_embed` of lines 94-98), read off the loop state before step `t`;
`none` models the `NameError` crash. -/
def word_embed_at {σ γ ω E O : Type} (M : ForwardModel σ γ ω E O) (hc0 : σ)
    (captions : Nat → Nat) (draws : Nat → ℚ) (t : Nat) : Option E :=
  match forward_iter M hc0 captions draws t with
  | none => none
  | some (_, we, _, _) =>
    if use_sampling_at draws t then we else some (M.embed (captions t))

/-- Observer: the output logits recorded at step `t` (line 108). -/
def output_at {σ γ ω E O : Type} (M : ForwardModel σ γ ω E O) (hc0 : σ)
    (captions : Nat → Nat) (draws : Nat → ℚ) (t : Nat) : Option O :=
  match forward_iter M hc0 captions draws (t + 1) with
  | none => none
  | some (_, _, outs, _) => outs.getLast?

/-- `DecoderLSTM.forward` (lines 67-110): run `seq_len` steps and return the
accumulated outputs and attention weights.  The `sample_prob` parameter is
the caller-supplied argument of line 67; line 92 rebinds it before first
use, so the body never consults it. -/
def DecoderLSTM_forward {σ γ ω E O : Type} (M : ForwardModel σ γ ω E O) (hc0 : σ)
    (captions : Nat → Nat) (draws : Nat → ℚ) (seq_len : Nat) (sample_prob : ℚ) :
    Option (List O × List ω) :=
  match forward_iter M hc0 captions draws seq_len with
  | none => none
  | some (_, _, outs, wts) => some (outs, wts)

/-- Concrete forward model on `Nat` data used for concrete evaluations:
`embed` is the identity, attention returns the state itself, the cell
returns the consumed embedding, `fc` adds one, `sample` is the identity. -/
def Mc : ForwardModel Nat Nat Nat Nat Nat :=
  ⟨fun tok => tok, fun h => (h, h), fun w _ _ => w, fun h => h + 1, fun o => o⟩

/-- Concrete caption: every position holds token `7`. -/
def capC : Nat → Nat := fun _ => 7

/-- Concrete random draws: `9/10` at step 0, `0` afterwards (so the coin flip
fails at step 0 — as it always does — and succeeds at every later step). -/
def drawC : Nat → ℚ := fun t => if t = 0 then 9/10 else 0

/-! ## Vocabulary construction and persistence (`src/datasets/embedding.py`)

`CaptionEmbedder.process_df` (lines 49-55) sets `self.w2i =
VocabBuilder2.make_dict(df['tokenized'], self.min_count)`; `save`/`load`
(lines 40-47) pickle and unpickle the whole object.  `VocabBuilder2` lives in
`preprocess/vocab`, which is not part of the sources, and pickle is an
external library, so both are modelled from the spec. -/

/-- Number of occurrences of token `w` in the tokenized corpus. -/
def countToken (corpus : List (List String)) (w : String) : Nat :=
  corpus.flatten.count w

/-- Assign consecutive integer indices, starting from `n`, to a list of words. -/
def assign_indices : List String → Nat → List (String × Nat)
  | [], _ => []
  | w :: ws, n => (w, n) :: assign_indices ws (n + 1)

/-- Modelled from the spec: `VocabBuilder2.make_dict` (imported at line 11 of
src/datasets/embedding.py but not present under the sources) builds the
word-to-index mapping of the VocabularyIndex from the tokenized corpus with a
minimum-frequency cutoff: tokens occurring at least `min_count` times
survive; indices 0 and 1 are reserved for the start and end tokens, so
surviving tokens receive consecutive indices from 2 in first-occurrence
order. -/
def make_dict (corpus : List (List String)) (min_count : Nat) : List (String × Nat) :=
  assign_indices
    ((corpus.flatten.dedup).filter (fun w => decide (min_count ≤ countToken corpus w))) 2

/-- `CaptionEmbedder.__init__` state (lines 17-23): the configuration fields
and the `w2i` mapping (the external gensim model is not part of the claims). -/
structure CaptionEmbedder where
  vector_size : Nat
  window : Nat
  min_count : Nat
  sg : Nat
  w2i : List (String × Nat)

/-- `CaptionEmbedder.process_df` (lines 49-55): rebuild `w2i` from the corpus
via `make_dict` with this embedder's `min_count`. -/
def process_df (e : CaptionEmbedder) (corpus : List (List String)) : CaptionEmbedder :=
  ⟨e.vector_size, e.window, e.min_count, e.sg, make_dict corpus e.min_count⟩

/-- Modelled from the spec: `CaptionEmbedder.save` (lines 40-42) pickles the
whole object; the pickle payload is modelled as the tuple of the object's
state. -/
def CaptionEmbedder.save (e : CaptionEmbedder) :
    (Nat × Nat × Nat × Nat) × List (String × Nat) :=
  ((e.vector_size, e.window, e.min_count, e.sg), e.w2i)

/-- Modelled from the spec: `CaptionEmbedder.load` (lines 44-47) unpickles a
payload back into an object. -/
def CaptionEmbedder.load (p : (Nat × Nat × Nat × Nat) × List (String × Nat)) :
    CaptionEmbedder :=
  ⟨p.1.1, p.1.2.1, p.1.2.2.1, p.1.2.2.2, p.2⟩

/-- Python `dict` lookup on the association-list model of `w2i`. -/
def lookupTok : List (String × Nat) → String → Option Nat
  | [], _ => none
  | (k, v) :: rest, w => if w = k then some v else lookupTok rest w

/-- Concrete training corpus for evaluations. -/
def corpusEx : List (List String) := [["a", "a", "b"], ["a", "c"]]

/-- Concrete embedder with the default `min_count = 3`. -/
def embedderEx : CaptionEmbedder := ⟨256, 3, 3, 1, []⟩

/-- Concrete attention module with all-zero weights, one feature, one slot,
one hidden unit. -/
noncomputable def attn0 : BahdanauAttention 1 1 :=
  ⟨⟨fun _ _ => 0, fun _ => 0⟩, ⟨fun _ _ => 0, fun _ => 0⟩, ⟨fun _ _ => 0, fun _ => 0⟩⟩

/-- Concrete feature map: one example, one slot, one dimension, value 5. -/
noncomputable def feat0 : Fin 1 → Fin 1 → Fin 1 → ℝ := fun _ _ _ => 5

/-- Concrete hidden state: one example, one hidden unit, value 0. -/
noncomputable def hid0 : Fin 1 → Fin 1 → ℝ := fun _ _ => 0

/-! ## Theorems -/

/-- Claim C2: for every valid input to the attention scorer (a batch of
feature maps with at least one slot and a hidden state), the attention
weights returned by `BahdanauAttention.forward` are non-negative and, for
each example in the batch, sum to 1 across the slot axis. -/
theorem attention_weights_nonneg_sum_one {b n nf hd : Nat}
    (A : BahdanauAttention nf hd) (features : Fin b → Fin n → Fin nf → ℝ)
    (hidden : Fin b → Fin hd → ℝ) (hn : 0 < n) :
    (∀ i s, 0 ≤ attention_weight A features hidden i s) ∧
    (∀ i, ∑ s, attention_weight A features hidden i s = 1) := by
  have hne : (Finset.univ : Finset (Fin n)).Nonempty := by
    have : Nonempty (Fin n) := Fin.pos_iff_nonempty.mp hn
    exact Finset.univ_nonempty
  have hpos : ∀ i : Fin b, 0 < ∑ u, Real.exp (attention_score A features hidden i u) :=
    fun i => Finset.sum_pos (fun u _ => Real.exp_pos _) hne
  constructor
  · intro i s
    exact div_nonneg (Real.exp_pos _).le (hpos i).le
  · intro i
    simp only [attention_weight]
    rw [← Finset.sum_div]
    exact div_self (ne_of_gt (hpos i))

/-- Concrete instance of claim C2 at `attn0`, `feat0`, `hid0` (one example,
one slot): the weight is non-negative and the slot sum is 1. -/
theorem attention_weights_nonneg_sum_one_witness :
    0 ≤ attention_weight attn0 feat0 hid0 0 0 ∧
    ∑ s, attention_weight attn0 feat0 hid0 0 s = 1 :=
  ⟨(attention_weights_nonneg_sum_one attn0 feat0 hid0 (by decide)).1 0 0,
   (attention_weights_nonneg_sum_one attn0 feat0 hid0 (by decide)).2 0⟩

/-- Claim C3: the context vector returned by `BahdanauAttention.forward` is
exactly the attention-weighted sum of the feature-map slots (reducing the
slot axis); in particular, whenever the returned attention weights are
one-hot at a slot `s0`, the context equals that slot's feature vector. -/
theorem attention_context_weighted_sum {b n nf hd : Nat}
    (A : BahdanauAttention nf hd) (features : Fin b → Fin n → Fin nf → ℝ)
    (hidden : Fin b → Fin hd → ℝ) :
    (∀ i d, attention_context A features hidden i d =
      ∑ s, attention_weight A features hidden i s * features i s d) ∧
    (∀ i s0, (∀ s, attention_weight A features hidden i s = if s = s0 then 1 else 0) →
      ∀ d, attention_context A features hidden i d = features i s0 d) := by
  refine ⟨fun i d => rfl, fun i s0 h1 d => ?_⟩
  simp only [attention_context, h1, ite_mul, one_mul, zero_mul]
  simp [Finset.sum_ite_eq]

/-- Concrete instance of claim C3: with one slot the softmax weight is the
one-hot vector `(1)`, and the context reproduces exactly that slot's feature
value. -/
theorem attention_context_weighted_sum_witness :
    attention_context attn0 feat0 hid0 0 0 = feat0 0 0 0 :=
  (attention_context_weighted_sum attn0 feat0 hid0).2 0 0
    (by
      intro s
      have hs : s = 0 := Fin.eq_zero s
      subst hs
      simp only [if_pos rfl, attention_weight, Fin.sum_univ_one]
      exact div_self (Real.exp_ne_zero _)) 0

/-- Claim C4 (code bug): `DecoderLSTM.init_hidden` never produces the pair
promised by its docstring — the body computes the mean and `h0` but has no
`return` statement and never applies `init_c`, so every call returns `None`
and the unpacking `h, c = self.init_hidden(features)` fails. -/
theorem init_hidden_returns_none {b n nf hd : Nat} (init_h init_c : Linear nf hd)
    (features : Fin b → Fin n → Fin nf → ℝ) :
    init_hidden init_h init_c features = none := rfl

/-- Each `greedy_loop` iteration appends one token, so the returned sentence
is strictly longer than the accumulator it started from. -/
theorem greedy_loop_length_mono {σ ω : Type} (M : GreedyStep σ ω) (maxS : Nat) :
    ∀ (fuel : Nat) (s : σ) (inp : Nat) (sent : List Nat) (wts : List ω),
      sent.length < (greedy_loop M maxS fuel s inp sent wts).1.length := by
  intro fuel
  induction fuel with
  | zero =>
    intro s inp sent wts
    simp only [greedy_loop]
    split
    · simp
    · simp
  | succ f ih =>
    intro s inp sent wts
    simp only [greedy_loop]
    split
    · simp
    · exact lt_trans (by simp) (ih _ _ _ _)

/-- `greedy_loop` appends to the sentence and to the weights in lockstep. -/
theorem greedy_loop_len_eq {σ ω : Type} (M : GreedyStep σ ω) (maxS : Nat) :
    ∀ (fuel : Nat) (s : σ) (inp : Nat) (sent : List Nat) (wts : List ω),
      sent.length = wts.length →
      (greedy_loop M maxS fuel s inp sent wts).1.length =
        (greedy_loop M maxS fuel s inp sent wts).2.length := by
  intro fuel
  induction fuel with
  | zero =>
    intro s inp sent wts h
    simp only [greedy_loop]
    split
    · simp [h]
    · simp [h]
  | succ f ih =>
    intro s inp sent wts h
    simp only [greedy_loop]
    split
    · simp [h]
    · exact ih _ _ _ _ (by simp [h])

/-- With enough fuel, `greedy_loop` never pushes the sentence past
`max_sentence`: the break on `len(sentence) >= max_sentence` fires first. -/
theorem greedy_loop_len_le {σ ω : Type} (M : GreedyStep σ ω) (maxS : Nat) :
    ∀ (fuel : Nat) (s : σ) (inp : Nat) (sent : List Nat) (wts : List ω),
      sent.length < maxS → maxS ≤ fuel + sent.length + 1 →
      (greedy_loop M maxS fuel s inp sent wts).1.length ≤ maxS := by
  intro fuel
  induction fuel with
  | zero =>
    intro s inp sent wts hlt hfuel
    simp only [greedy_loop]
    rw [if_pos (Or.inl (by simp; omega))]
    simp
    omega
  | succ f ih =>
    intro s inp sent wts hlt hfuel
    simp only [greedy_loop]
    split
    · simp
      omega
    · rename_i hcond
      rw [not_or] at hcond
      exact ih _ _ _ _ (Nat.lt_of_not_le hcond.1) (by simp; omega)

/-- With enough fuel, `greedy_loop` exits through its break condition: the
final sentence has reached `max_sentence` or ends with the end token 1. -/
theorem greedy_loop_exit {σ ω : Type} (M : GreedyStep σ ω) (maxS : Nat) :
    ∀ (fuel : Nat) (s : σ) (inp : Nat) (sent : List Nat) (wts : List ω),
      maxS ≤ fuel + sent.length + 1 →
      maxS ≤ (greedy_loop M maxS fuel s inp sent wts).1.length ∨
        (greedy_loop M maxS fuel s inp sent wts).1.getLast? = some 1 := by
  intro fuel
  induction fuel with
  | zero =>
    intro s inp sent wts hfuel
    simp only [greedy_loop]
    rw [if_pos (Or.inl (by simp; omega))]
    left
    simp
    omega
  | succ f ih =>
    intro s inp sent wts hfuel
    simp only [greedy_loop]
    split
    · rename_i hcond
      rcases hcond with hcond | hcond
      · left
        simpa using hcond
      · right
        rw [hcond]
        exact List.getLast?_concat _
    · exact ih _ _ _ _ (by simp; omega)

/-- If the end token was not already in the accumulator, then whenever it
occurs in the returned sentence it is the final element (the loop breaks the
moment it is emitted). -/
theorem greedy_loop_mem_one_last {σ ω : Type} (M : GreedyStep σ ω) (maxS : Nat) :
    ∀ (fuel : Nat) (s : σ) (inp : Nat) (sent : List Nat) (wts : List ω),
      1 ∉ sent →
      1 ∈ (greedy_loop M maxS fuel s inp sent wts).1 →
      (greedy_loop M maxS fuel s inp sent wts).1.getLast? = some 1 := by
  intro fuel
  induction fuel with
  | zero =>
    intro s inp sent wts hmem h1
    simp only [greedy_loop] at h1 ⊢
    have htok : (M.step s inp).2.1 = 1 := by
      split at h1
      all_goals
        rcases List.mem_append.mp h1 with h | h
        · exact absurd h hmem
        · exact (List.mem_singleton.mp h).symm
    split
    all_goals rw [htok]; exact List.getLast?_concat _
  | succ f ih =>
    intro s inp sent wts hmem h1
    simp only [greedy_loop] at h1 ⊢
    split at h1
    · rename_i hcond
      have htok : (M.step s inp).2.1 = 1 := by
        rcases List.mem_append.mp h1 with h | h
        · exact absurd h hmem
        · exact (List.mem_singleton.mp h).symm
      rw [if_pos hcond, htok]
      exact List.getLast?_concat _
    · rename_i hcond
      rw [not_or] at hcond
      rw [if_neg (not_or.mpr hcond)]
      refine ih _ _ _ _ ?_ h1
      intro hx
      rcases List.mem_append.mp hx with h | h
      · exact hmem h
      · exact hcond.2 (List.mem_singleton.mp h).symm

/-- Counterexample to claim C1 as stated.  With the step model that always
emits the end token: at `max_sentence = 0` the returned sentence has length
1, refuting the unconditional bound `length ≤ max_sentence`; and at
`max_sentence = 1` the end token is produced, yet the loop does not
terminate before reaching `max_sentence` tokens, refuting the right-to-left
direction of the `iff`. -/
theorem greedy_search_claim_counterexample :
    (¬ (greedy_search stepOne () 0).1.length ≤ 0) ∧
    ((greedy_search stepOne () 1).1.getLast? = some 1 ∧
      ¬ (greedy_search stepOne () 1).1.length < 1) := by
  decide

/-- Claim C1 (amended): for every step model (hence every feature map), every
initial recurrent state and every `max_sentence ≥ 1`, the greedy decoding
loop terminates (the embedding is a total function), the returned token
sequence has length at most `max_sentence`, and if it terminates with fewer
than `max_sentence` tokens then the last produced token is the end token 1. -/
theorem greedy_search_terminates_le {σ ω : Type} (M : GreedyStep σ ω) (hc : σ)
    (maxS : Nat) (hmax : 1 ≤ maxS) :
    (greedy_search M hc maxS).1.length ≤ maxS ∧
    ((greedy_search M hc maxS).1.length < maxS →
      (greedy_search M hc maxS).1.getLast? = some 1) := by
  have h1 : (greedy_search M hc maxS).1.length ≤ maxS :=
    greedy_loop_len_le M maxS maxS hc 0 [] [] (by simpa using hmax) (by simp)
  have h2 : maxS ≤ (greedy_search M hc maxS).1.length ∨
      (greedy_search M hc maxS).1.getLast? = some 1 :=
    greedy_loop_exit M maxS maxS hc 0 [] [] (by simp)
  exact ⟨h1, fun hlt => h2.resolve_left (by omega)⟩

/-- Witness for the amended claim C1: at `max_sentence = 2` with the
never-ending step model the sentence stays within the bound, and at
`max_sentence = 3` with the immediately-ending step model the early
termination ends in the end token. -/
theorem greedy_search_terminates_le_witness :
    (1 ≤ 2 ∧ (greedy_search stepZero () 2).1.length ≤ 2) ∧
    (greedy_search stepOne () 3).1.getLast? = some 1 := by
  refine ⟨⟨by decide, (greedy_search_terminates_le stepZero () 2 (by decide)).1⟩, ?_⟩
  exact (greedy_search_terminates_le stepOne () 3 (by decide)).2 (by decide)

/-- Claim C10: for every step model, initial state and `max_sentence`,
`greedy_search` returns a non-empty token list together with an
attention-weight list of exactly the same length (one weight recorded per
emitted token), and whenever the end token 1 occurs among the returned
tokens it is the final element. -/
theorem greedy_search_shape_invariants {σ ω : Type} (M : GreedyStep σ ω) (hc : σ)
    (maxS : Nat) :
    (greedy_search M hc maxS).1 ≠ [] ∧
    (greedy_search M hc maxS).1.length = (greedy_search M hc maxS).2.length ∧
    (1 ∈ (greedy_search M hc maxS).1 →
      (greedy_search M hc maxS).1.getLast? = some 1) := by
  refine ⟨?_, greedy_loop_len_eq M maxS maxS hc 0 [] [] rfl,
    greedy_loop_mem_one_last M maxS maxS hc 0 [] [] (by simp)⟩
  have hlen := greedy_loop_length_mono M maxS maxS hc 0 [] []
  intro hnil
  rw [greedy_search] at hnil
  rw [hnil] at hlen
  simp at hlen

/-- Witness for claim C10: with the immediately-ending step model at the
default `max_sentence = 20`, the result is non-empty, the two lists have the
same length, and the end token is final. -/
theorem greedy_search_shape_invariants_witness :
    (greedy_search stepOne () 20).1 ≠ [] ∧
    (greedy_search stepOne () 20).1.length = (greedy_search stepOne () 20).2.length ∧
    (greedy_search stepOne () 20).1.getLast? = some 1 := by
  obtain ⟨a, b, c⟩ := greedy_search_shape_invariants stepOne () 20
  exact ⟨a, b, c (by decide)⟩

/-- Claim C9: two runs of `DecoderLSTM.forward` on the same model, captions,
features and random draws that differ only in the caller-supplied
`sample_prob` argument produce identical outputs and attention weights:
line 92 rebinds `sample_prob` before it is ever read, so the argument is
dead. -/
theorem forward_sample_prob_irrelevant {σ γ ω E O : Type}
    (M : ForwardModel σ γ ω E O) (hc0 : σ) (captions : Nat → Nat)
    (draws : Nat → ℚ) (seq_len : Nat) (p q : ℚ) :
    DecoderLSTM_forward M hc0 captions draws seq_len p =
      DecoderLSTM_forward M hc0 captions draws seq_len q := rfl

/-- At `t = 0` the sampling threshold is `0.0` and `np.random.random()` is
never negative, so the coin flip always fails. -/
theorem use_sampling_at_zero (draws : Nat → ℚ) (h0 : 0 ≤ draws 0) :
    use_sampling_at draws 0 = false := by
  simp only [use_sampling_at, if_pos rfl]
  exact decide_eq_false (not_lt.mpr h0)

/-- Claim C5: in the training loop, the word embedding fed to the LSTM cell
at step `t = 0` is always the ground-truth embedding of the caption's first
token, for every sequence of (non-negative) random draws; together with
`forward_sample_prob_irrelevant`, the caller-supplied sampling probability
has no influence on it either. -/
theorem forward_step0_ground_truth {σ γ ω E O : Type}
    (M : ForwardModel σ γ ω E O) (hc0 : σ) (captions : Nat → Nat)
    (draws : Nat → ℚ) (h0 : 0 ≤ draws 0) :
    word_embed_at M hc0 captions draws 0 = some (M.embed (captions 0)) := by
  simp only [word_embed_at, forward_iter, use_sampling_at_zero draws h0]
  simp

/-- Witness for claim C5 at the concrete model `Mc` with draws `drawC`:
the embedding consumed at step 0 is the ground-truth embedding `7`. -/
theorem forward_step0_ground_truth_witness :
    (0 ≤ drawC 0) ∧ word_embed_at Mc 0 capC drawC 0 = some 7 := by
  refine ⟨by norm_num [drawC], ?_⟩
  rw [forward_step0_ground_truth Mc 0 capC drawC (by norm_num [drawC])]
  rfl

/-- Step-shape invariant of the training loop: when the step-0 draw is
non-negative (as `np.random.random()` guarantees), no step crashes, and
after step `t` the loop state holds a recurrent state `h`, a `word_embed`
binding left for step `t+1` — the sampled embedding of step `t`'s output if
the step-`t` coin flip succeeded, and otherwise the embedding consumed at
step `t`, which for a failed flip is the ground-truth embedding of position
`t` — and outputs ending in step `t`'s output `fc h`. -/
theorem forward_iter_shape {σ γ ω E O : Type} (M : ForwardModel σ γ ω E O)
    (hc0 : σ) (captions : Nat → Nat) (draws : Nat → ℚ) (h0 : 0 ≤ draws 0) :
    ∀ t : Nat, ∃ h outs wts,
      forward_iter M hc0 captions draws (t + 1) =
        some (h,
          some (if use_sampling_at draws t
                then M.embed (M.sample (M.fc h))
                else M.embed (captions t)),
          outs, wts) ∧
      outs.getLast? = some (M.fc h) := by
  intro t
  induction t with
  | zero =>
    have hus := use_sampling_at_zero draws h0
    refine ⟨M.lstm_drop (M.embed (captions 0)) (M.attention hc0).1 hc0,
      [M.fc (M.lstm_drop (M.embed (captions 0)) (M.attention hc0).1 hc0)],
      [(M.attention hc0).2], ?_, by simp⟩
    simp only [forward_iter, hus]
    simp
  | succ s ihs =>
    obtain ⟨h, outs, wts, hiter, hlast⟩ := ihs
    cases hus : use_sampling_at draws (s + 1) with
    | false =>
      refine ⟨M.lstm_drop (M.embed (captions (s + 1))) (M.attention h).1 h,
        outs ++ [M.fc (M.lstm_drop (M.embed (captions (s + 1))) (M.attention h).1 h)],
        wts ++ [(M.attention h).2], ?_, List.getLast?_concat _⟩
      rw [forward_iter, hiter]
      simp [hus]
    | true =>
      refine ⟨M.lstm_drop
          (if use_sampling_at draws s then M.embed (M.sample (M.fc h))
            else M.embed (captions s)) (M.attention h).1 h,
        outs ++ [M.fc (M.lstm_drop
          (if use_sampling_at draws s then M.embed (M.sample (M.fc h))
            else M.embed (captions s)) (M.attention h).1 h)],
        wts ++ [(M.attention h).2], ?_, List.getLast?_concat _⟩
      rw [forward_iter, hiter]
      simp [hus]

/-- The step-0 draw of `drawC` is non-negative. -/
theorem drawC_zero_nonneg : 0 ≤ drawC 0 := by
  norm_num [drawC]

/-- The coin flip of `drawC` fails at step 0. -/
theorem use_sampling_drawC_zero : use_sampling_at drawC 0 = false :=
  use_sampling_at_zero drawC drawC_zero_nonneg

/-- The coin flip of `drawC` succeeds at step 1. -/
theorem use_sampling_drawC_one : use_sampling_at drawC 1 = true := by
  simp only [use_sampling_at, drawC]
  norm_num

/-- Concrete evaluation of the first training step on `Mc`: the flip fails,
the ground-truth embedding 7 is consumed, the new state is 7, the recorded
output is 8, and the carried `word_embed` is 7. -/
theorem forward_iter_Mc_one :
    forward_iter Mc 0 capC drawC 1 = some (7, some 7, [8], [0]) := by
  rw [forward_iter, forward_iter]
  simp [use_sampling_drawC_zero, Mc, capC]

/-- Concrete evaluation: the embedding consumed at step 1 on `Mc` is 7. -/
theorem word_embed_Mc_one : word_embed_at Mc 0 capC drawC 1 = some 7 := by
  simp only [word_embed_at, forward_iter_Mc_one, use_sampling_drawC_one, if_pos]

/-- Concrete evaluation: the step-0 output recorded on `Mc` is 8. -/
theorem output_Mc_zero : output_at Mc 0 capC drawC 0 = some 8 := by
  simp only [output_at, Nat.zero_add, forward_iter_Mc_one]
  rfl

/-- Counterexample to claim C6 as stated: with the concrete model `Mc`,
captions `capC` and draws `drawC`, the step-1 coin flip succeeds, yet the
input fed at step 1 is `7` — the ground-truth embedding of position 0 left
over from step 0, whose flip failed — and not the token sampled from the
step-0 output distribution, which would be `8`. -/
theorem forward_scheduled_sampling_counterexample :
    use_sampling_at drawC 1 = true ∧
    word_embed_at Mc 0 capC drawC 1 = some 7 ∧
    Option.map (fun o => Mc.embed (Mc.sample o)) (output_at Mc 0 capC drawC 0) = some 8 ∧
    word_embed_at Mc 0 capC drawC 1 ≠
      Option.map (fun o => Mc.embed (Mc.sample o)) (output_at Mc 0 capC drawC 0) := by
  refine ⟨use_sampling_drawC_one, word_embed_Mc_one, ?_, ?_⟩
  · rw [output_Mc_zero]
    rfl
  · rw [word_embed_Mc_one, output_Mc_zero]
    simp [Mc]

/-- Claim C6 (amended): in the training loop, for every step `t = s+1 ≥ 1`:
when the step-`t` coin flip fails, the input fed at step `t` is the
ground-truth embedding at position `t`; when it succeeds, the input is the
`word_embed` binding left by step `s` — the token sampled from step `s`'s
output distribution (temperature-scaled arg-max) if the step-`s` flip also
succeeded, and the stale ground-truth embedding of position `s` otherwise. -/
theorem forward_scheduled_sampling_input {σ γ ω E O : Type}
    (M : ForwardModel σ γ ω E O) (hc0 : σ) (captions : Nat → Nat)
    (draws : Nat → ℚ) (h0 : 0 ≤ draws 0) (s : Nat) :
    word_embed_at M hc0 captions draws (s + 1) =
      if use_sampling_at draws (s + 1) then
        (if use_sampling_at draws s then
          Option.map (fun o => M.embed (M.sample o)) (output_at M hc0 captions draws s)
        else some (M.embed (captions s)))
      else some (M.embed (captions (s + 1))) := by
  obtain ⟨h, outs, wts, hiter, hlast⟩ := forward_iter_shape M hc0 captions draws h0 s
  have hout : output_at M hc0 captions draws s = some (M.fc h) := by
    simp only [output_at, hiter, hlast]
  simp only [word_embed_at, hiter, hout]
  cases use_sampling_at draws (s + 1) <;> cases use_sampling_at draws s <;> simp

/-- Witness for the amended claim C6 at the concrete model: the step-1 flip
succeeds, the step-0 flip failed, and the input fed at step 1 is the stale
ground-truth embedding `7` of position 0, as the amended claim predicts. -/
theorem forward_scheduled_sampling_input_witness :
    (0 ≤ drawC 0) ∧ word_embed_at Mc 0 capC drawC 1 = some 7 := by
  refine ⟨drawC_zero_nonneg, ?_⟩
  rw [forward_scheduled_sampling_input Mc 0 capC drawC drawC_zero_nonneg 0]
  simp [use_sampling_drawC_one, use_sampling_drawC_zero, Mc, capC]

/-- Counterexample to claim C7 as stated: `BahdanauAttention(2, 4)` is
constructed without any error — construction merely records the weight
shapes and validates nothing — yet calling `forward` with features whose
`feature_dim` is 3 instead of 2 raises the shape error: the mismatch first
surfaces at forward-call time, not at construction time. -/
theorem bahdanau_shape_error_counterexample :
    bahdanau_init 2 4 1 = ((2, 4), (4, 4), (4, 1)) ∧
    bahdanau_forward_shape 2 4 1 3 3 1 4 = none := by
  decide

/-- Claim C7 (amended): `BahdanauAttention.__init__` performs no input
validation — construction succeeds for every dimension configuration,
recording the weight shapes — and a mismatch between the inputs'
`feature_dim`/`hidden_dim` and the learned matrices surfaces at
forward-call time: for a batch-consistent call, `forward` succeeds exactly
when the inputs' `feature_dim` and `hidden_dim` equal the configured
`num_features` and `hidden_dim`. -/
theorem bahdanau_shape_error_at_call (nf hd b n fdim hdim : Nat) :
    bahdanau_init nf hd 1 = ((nf, hd), (hd, hd), (hd, 1)) ∧
    ((bahdanau_forward_shape nf hd b n fdim b hdim).isSome ↔ fdim = nf ∧ hdim = hd) := by
  refine ⟨rfl, ?_⟩
  unfold bahdanau_forward_shape linear_apply_shape broadcast_dim
  by_cases h1 : fdim = nf <;> by_cases h2 : hdim = hd <;> simp [h1, h2]

/-- Looking up any member of a word list succeeds in its index assignment. -/
theorem lookupTok_assign_indices_mem :
    ∀ (l : List String) (n : Nat) (w : String), w ∈ l →
      ∃ i, lookupTok (assign_indices l n) w = some i := by
  intro l
  induction l with
  | nil =>
    intro n w hw
    cases hw
  | cons a as ih =>
    intro n w hw
    by_cases hwa : w = a
    · exact ⟨n, by simp [assign_indices, lookupTok, hwa]⟩
    · have hmem : w ∈ as := by
        cases hw with
        | head => exact absurd rfl hwa
        | tail _ h => exact h
      obtain ⟨i, hi⟩ := ih (n + 1) w hmem
      exact ⟨i, by simp [assign_indices, lookupTok, hwa, hi]⟩

/-- Unpickling a pickled embedder restores the object state. -/
theorem load_save_id (e : CaptionEmbedder) :
    CaptionEmbedder.load (CaptionEmbedder.save e) = e := rfl

/-- Claim C8: building the VocabularyIndex from a corpus with the
minimum-frequency cutoff, persisting the embedder with `save` and reloading
it with `load` preserves the word-to-index mapping: every token that
occurs in the corpus and survives the cutoff is mapped, after the round
trip, to the same integer index as in the in-memory mapping before
persistence. -/
theorem vocab_save_load_roundtrip (e : CaptionEmbedder) (corpus : List (List String))
    (w : String) (hmem : 0 < countToken corpus w)
    (hsurv : e.min_count ≤ countToken corpus w) :
    ∃ i, lookupTok (process_df e corpus).w2i w = some i ∧
      lookupTok (CaptionEmbedder.load
        (CaptionEmbedder.save (process_df e corpus))).w2i w = some i := by
  rw [load_save_id]
  have hwj : w ∈ corpus.flatten := by
    have := hmem
    rw [countToken] at this
    exact List.count_pos_iff.mp this
  have hwf : w ∈ (corpus.flatten.dedup).filter
      (fun x => decide (e.min_count ≤ countToken corpus x)) := by
    rw [List.mem_filter]
    exact ⟨List.mem_dedup.mpr hwj, by simpa using hsurv⟩
  obtain ⟨i, hi⟩ := lookupTok_assign_indices_mem _ 2 w hwf
  exact ⟨i, by simpa [process_df, make_dict] using hi,
    by simpa [process_df, make_dict] using hi⟩

/-- Witness for claim C8: in the corpus `corpusEx` the token `"a"` occurs 3
times, surviving the default cutoff `min_count = 3`, and after save/load it
keeps its index. -/
theorem vocab_save_load_roundtrip_witness :
    (0 < countToken corpusEx "a" ∧ embedderEx.min_count ≤ countToken corpusEx "a") ∧
    ∃ i, lookupTok (process_df embedderEx corpusEx).w2i "a" = some i ∧
      lookupTok (CaptionEmbedder.load
        (CaptionEmbedder.save (process_df embedderEx corpusEx))).w2i "a" = some i := by
  refine ⟨⟨by decide, by decide⟩, ?_⟩
  exact vocab_save_load_roundtrip embedderEx corpusEx "a" (by decide) (by decide)
